import Mathlib

/-!
# Verification of the client-side data synchronization and versioning subsystem

This file gives a shallow embedding of the synchronization/versioning core of
the AI-Legal-Secretary application and proves the specified properties about
it.  The embedding covers:

* `incrementVersion` (services/versionService): digit-rollover version
  increment with a JS `Number`-coercion guard and a localStorage side effect;
* the remote sync client (services/syncService): the response normalizer
  `parseResponse`, the compression pipeline of `saveCloudData`;
* the import/export adapter (services/persistenceService): `exportData` and
  `parseImportData`;
* the application state coordinator (the `App` component): the fetch-only
  sync handler, the save handler, the file-import handler and the delete
  handler.

JavaScript built-ins that the source calls (string `split`, `Number`
coercion, `JSON.stringify`/`JSON.parse`, and the external LZString library)
are modelled explicitly below; each such model carries a doc comment saying
what it stands for.  JS numbers are modelled as exact rationals (pairs of an
integer numerator and a positive natural denominator); IEEE-754 rounding is
outside the scope of this model.
-/

/-! ## Local storage model -/

/-- Modelled from the spec: the browser's `localStorage`, a durable string
key-value store.  Represented as an association list; `setItem` overwrites
any prior binding of the key. -/
def Store := List (String × String)
deriving DecidableEq

/-- `localStorage.setItem key value`: overwrite any prior value of `key`. -/
def Store.setItem (store : Store) (key value : String) : Store :=
  (key, value) :: (store : List (String × String)).filter (fun p => p.1 != key)

/-- The fixed localStorage key for the revision
(`legal_app_version` in the source). -/
def VERSION_KEY : String := "legal_app_version"

/-! ## Decimal digit strings -/

/-- The character for one decimal digit. -/
def decDigit : Nat → Char
  | 0 => '0' | 1 => '1' | 2 => '2' | 3 => '3' | 4 => '4'
  | 5 => '5' | 6 => '6' | 7 => '7' | 8 => '8' | _ => '9'

/-- Is this character a decimal digit? -/
def isDecDigit (c : Char) : Bool :=
  48 ≤ c.toNat && c.toNat ≤ 57

/-- Numeric value of a decimal digit character. -/
def digitVal (c : Char) : Nat := c.toNat - 48

/-- Fuel-driven decimal rendering of a natural number
(most significant digit first).  `fuel > n` makes it total. -/
def natToDecAux : Nat → Nat → List Char
  | 0, _ => []
  | fuel + 1, n =>
    if n < 10 then [decDigit n]
    else natToDecAux fuel (n / 10) ++ [decDigit (n % 10)]

/-- Decimal rendering of a natural number, e.g. `natToDec 10 = ['1','0']`.
Models the JS decimal rendering of an integer-valued number. -/
def natToDec (n : Nat) : List Char := natToDecAux (n + 1) n

/-- Decimal rendering of an integer (with a leading minus sign). -/
def intToDec : Int → List Char
  | Int.ofNat n => natToDec n
  | Int.negSucc m => '-' :: natToDec (m + 1)

/-- Fold a digit string back to the natural number it denotes. -/
def digitsToNat (cs : List Char) : Nat :=
  cs.foldl (fun a c => 10 * a + digitVal c) 0

/-! ## JS string split -/

/-- Modelled from the spec: JS `String.prototype.split('.')`.
`"".split('.') = [""]`, `"1..2".split('.') = ["1","","2"]`. -/
def splitOnDot : List Char → List (List Char)
  | [] => [[]]
  | c :: rest =>
    if c = '.' then [] :: splitOnDot rest
    else
      match splitOnDot rest with
      | s :: ss => (c :: s) :: ss
      | [] => [[c]]

/-! ## JS numbers

Modelled from the spec: JS numbers as produced by `Number(string)` coercion.
A number is NaN, a signed infinity, or a finite value represented as an
exact (not necessarily reduced) fraction `num / den` with `den > 0` by
construction.  IEEE-754 rounding of values is not modelled; none of the
verified properties depends on it. -/

/-- An exact finite JS number value: `num / den`. -/
structure JsRat where
  num : Int
  den : Nat
deriving DecidableEq, Repr

/-- A JS number: NaN, ±Infinity, or a finite exact value. -/
inductive JSNum where
  | nan
  | inf (negative : Bool)
  | val (q : JsRat)
deriving DecidableEq, Repr

/-- `isNaN` on a JS number. -/
def JSNum.isNaN : JSNum → Bool
  | .nan => true
  | _ => false

/-- The JS increment `x + 1` (wrapping `x++`). -/
def JSNum.add1 : JSNum → JSNum
  | .nan => .nan
  | .inf b => .inf b
  | .val q => .val ⟨q.num + q.den, q.den⟩

/-- The JS comparison `x > 9`.  `NaN > 9` is false. -/
def JSNum.gt9 : JSNum → Bool
  | .nan => false
  | .inf b => !b
  | .val q => 9 * (q.den : Int) < q.num

/-! ### JS `Number(string)` coercion -/

/-- JS whitespace trimmed by string-to-number coercion. -/
def jsWhitespace (c : Char) : Bool :=
  c == ' ' || c == '\t' || c == '\n' || c == '\r' || c == '\x0b' || c == '\x0c'

/-- Trim JS whitespace from both ends. -/
def trimWs (cs : List Char) : List Char :=
  ((cs.dropWhile jsWhitespace).reverse.dropWhile jsWhitespace).reverse

/-- Hex digit value, if any. -/
def hexVal (c : Char) : Option Nat :=
  if isDecDigit c then some (digitVal c)
  else if 'a' ≤ c && c ≤ 'f' then some (c.toNat - 87)
  else if 'A' ≤ c && c ≤ 'F' then some (c.toNat - 55)
  else none

/-- Fold digits of an arbitrary base, `none` if empty or out of range. -/
def foldBase (base : Nat) (digs : List Char) : Option Nat :=
  match digs with
  | [] => none
  | _ =>
    digs.foldl
      (fun acc c =>
        match acc, hexVal c with
        | some a, some v => if v < base then some (base * a + v) else none
        | _, _ => none)
      (some 0)

/-- Parse the exponent tail of a decimal literal (everything after `e`/`E`):
an optional sign and at least one digit, consuming the whole input. -/
def parseExpTail (cs : List Char) : Option Int :=
  let (sign, digs) : Bool × List Char :=
    match cs with
    | '+' :: r => (false, r)
    | '-' :: r => (true, r)
    | r => (false, r)
  if digs ≠ [] ∧ digs.all isDecDigit then
    some (if sign then -(digitsToNat digs : Int) else (digitsToNat digs : Int))
  else none

/-- Parse an unsigned decimal literal `digits [. digits] [exponent]`,
consuming the whole input; at least one digit must appear before the
exponent. Returns the exact value. -/
def parseDecLit (cs : List Char) : Option JsRat :=
  let (ip, r1) := cs.span isDecDigit
  let (fp, r2) : List Char × List Char :=
    if r1.head? = some '.' then r1.tail.span isDecDigit else ([], r1)
  if ip = [] ∧ fp = [] then none
  else
    let mantissa : Nat := digitsToNat (ip ++ fp)
    let adjust : Int → Option JsRat := fun e =>
      let e' : Int := e - fp.length
      if 0 ≤ e' then some ⟨(mantissa : Int) * 10 ^ e'.toNat, 1⟩
      else some ⟨(mantissa : Int), 10 ^ (-e').toNat⟩
    match r2 with
    | [] => adjust 0
    | 'e' :: r3 => (parseExpTail r3).bind adjust
    | 'E' :: r3 => (parseExpTail r3).bind adjust
    | _ => none

/-- Parse an unsigned numeric literal: `Infinity`, or a decimal literal.
(The sign, if any, has already been stripped.) -/
def parseUnsignedLit (cs : List Char) : JSNum :=
  if cs = "Infinity".data then .inf false
  else
    match parseDecLit cs with
    | some q => .val q
    | none => .nan

/-- A non-decimal (hex/octal/binary) unsigned integer literal body. -/
def baseLit (base : Nat) (r : List Char) : JSNum :=
  match foldBase base r with
  | some n => .val ⟨(n : Int), 1⟩
  | none => .nan

/-- Modelled from the spec: JS `Number(string)` coercion (ES `ToNumber`
applied to a string): trim whitespace; empty means `0`; otherwise an
optionally signed decimal literal or `Infinity`, or an unsigned
`0x`/`0o`/`0b` integer literal; anything else is NaN.  Values are exact
rationals (no IEEE-754 rounding). -/
def jsToNumber (cs : List Char) : JSNum :=
  let t := trimWs cs
  if t = [] then .val ⟨0, 1⟩
  else if t.head? = some '+' then parseUnsignedLit t.tail
  else if t.head? = some '-' then
    match parseUnsignedLit t.tail with
    | .inf _ => .inf true
    | .val q => .val ⟨-q.num, q.den⟩
    | .nan => .nan
  else if t.take 2 = ['0', 'x'] ∨ t.take 2 = ['0', 'X'] then
    baseLit 16 (t.drop 2)
  else if t.take 2 = ['0', 'o'] ∨ t.take 2 = ['0', 'O'] then
    baseLit 8 (t.drop 2)
  else if t.take 2 = ['0', 'b'] ∨ t.take 2 = ['0', 'B'] then
    baseLit 2 (t.drop 2)
  else parseUnsignedLit t

/-! ### JS number-to-string -/

/-- Left-pad a digit list with zeros to width `w`. -/
def padZeros (w : Nat) (ds : List Char) : List Char :=
  List.replicate (w - ds.length) '0' ++ ds

/-- Modelled from the spec: JS number-to-string for a finite value.  Integer
values print as plain decimal integers; values with a finite decimal
expansion print as `int.frac`.  (JS exponent notation for very large/small
magnitudes is outside the modelled range and is rendered with a `#` marker;
no verified property evaluates it.) -/
def jsRatToString (q : JsRat) : List Char :=
  if q.num % (q.den : Int) = 0 then intToDec (q.num / (q.den : Int))
  else
    let a : Nat := q.num.natAbs
    match (List.range 40).find? (fun k => (a * 10 ^ k) % q.den == 0) with
    | some k =>
      let scaled : Nat := a * 10 ^ k / q.den
      let intPart : Nat := scaled / 10 ^ k
      let fracPart : Nat := scaled % 10 ^ k
      (if q.num < 0 then ['-'] else []) ++
        natToDec intPart ++ '.' :: padZeros k (natToDec fracPart)
    | none => ['#']

/-- JS `String(x)` / template-literal rendering of a JS number. -/
def JSNum.toStr : JSNum → List Char
  | .nan => "NaN".data
  | .inf false => "Infinity".data
  | .inf true => "-Infinity".data
  | .val q => jsRatToString q

/-! ## incrementVersion (services/versionService.ts) -/

/-- `incrementVersion` from the source, with the `localStorage` side effect
made explicit: split the current version on `.`, coerce each part with
`Number`; if there are not exactly three parts or any part is NaN, reset to
`"1.0.1"`; otherwise increment the patch with digit rollover into minor and
major.  Every path persists the returned version under `VERSION_KEY`. -/
def incrementVersion (currentVersion : String) (store : Store) :
    String × Store :=
  let parts := (splitOnDot currentVersion.data).map jsToNumber
  if parts.length != 3 || parts.any JSNum.isNaN then
    ("1.0.1", store.setItem VERSION_KEY "1.0.1")
  else
    match parts with
    | [major0, minor0, patch0] =>
      let patch1 := patch0.add1
      let pm :=
        if patch1.gt9 then (JSNum.val ⟨0, 1⟩, minor0.add1) else (patch1, minor0)
      let mm :=
        if pm.2.gt9 then (JSNum.val ⟨0, 1⟩, major0.add1) else (pm.2, major0)
      let newVersion :=
        String.mk (mm.2.toStr ++ '.' :: mm.1.toStr ++ '.' :: pm.1.toStr)
      (newVersion, store.setItem VERSION_KEY newVersion)
    | _ => ("1.0.1", store.setItem VERSION_KEY "1.0.1")

/-- Canonical version string built from three natural components,
e.g. `mkVer 1 9 9 = "1.9.9"`. -/
def mkVer (major minor patch : Nat) : String :=
  String.mk (natToDec major ++ '.' :: natToDec minor ++ '.' :: natToDec patch)

/-! ## JSON values

The model of JS runtime values / JSON payloads.  Numbers are integers
(every number the subsystem stores — timestamps — is an integer; JSON has
no NaN/Infinity).  Objects are insertion-ordered field lists; field lookup
takes the first binding. -/

inductive Json where
  | null
  | bool (b : Bool)
  | num (i : Int)
  | str (s : String)
  | arr (elems : List Json)
  | obj (fields : List (String × Json))

/-- JS property access `payload.key`.  `none` models `undefined`: a
missing field, or field access on a non-object primitive (number, string,
boolean).  JS field access on `null` throws a TypeError instead of
yielding `undefined`; this total function returns `none` for `null` as
well, so a caller that can reach an unguarded field access on a possibly
null value must model the throw at the call site: `parseImportData` does
(its `Json.isNull` branch), and the sync paths never need to because the
source's own truthiness guards (`rawResponse && rawResponse.record`,
`payload && payload.compressed`, `data && Array.isArray(data.templates)`)
short-circuit before the access. -/
def Json.getField : Json → String → Option Json
  | .obj kvs, key => (kvs.find? (fun kv => kv.1 == key)).map (fun kv => kv.2)
  | _, _ => none

/-- Is this JSON value `null`? -/
def Json.isNull : Json → Bool
  | .null => true
  | _ => false

/-- JS truthiness of a value. -/
def Json.isTruthy : Json → Bool
  | .null => false
  | .bool b => b
  | .num i => i != 0
  | .str s => s != ""
  | .arr _ => true
  | .obj _ => true

/-- Truthiness of a possibly-`undefined` value (`undefined` is falsy). -/
def optTruthy : Option Json → Bool
  | some j => j.isTruthy
  | none => false

/-- JS `Array.isArray(x)` on a possibly-`undefined` value. -/
def isArrayField : Option Json → Bool
  | some (.arr _) => true
  | _ => false

/-! ## JSON text serialization

Modelled from the spec: the `JSON.stringify` / `JSON.parse` built-ins, "a
canonical text encoding" with JSON-parse as inverse.  The encoding is a
prefix code over characters (length-prefixed strings, unary integers,
marker-framed arrays and objects); the parser is fuel-driven and total.
Only reversibility matters to the verified properties, not the concrete
surface syntax. -/

/-- Encoded form of a string: a unary length prefix, then the characters. -/
def encStrChars (s : String) : List Char :=
  List.replicate s.length '1' ++ 'E' :: s.data

/-- Encoded form of an integer: sign, unary magnitude, terminator. -/
def encInt : Int → List Char
  | Int.ofNat n => '+' :: List.replicate n '1' ++ ['E']
  | Int.negSucc m => '-' :: List.replicate (m + 1) '1' ++ ['E']

/-- Encode a JSON value as text. -/
def encJson : Json → List Char
  | .null => ['n']
  | .bool true => ['t']
  | .bool false => ['f']
  | .num i => 'i' :: encInt i
  | .str s => 's' :: encStrChars s
  | .arr xs => 'A' :: encItems xs ++ ['B']
  | .obj kvs => 'O' :: encFields kvs ++ ['P']
where
  encItems : List Json → List Char
    | [] => []
    | x :: xs => 'I' :: encJson x ++ encItems xs
  encFields : List (String × Json) → List Char
    | [] => []
    | kv :: kvs => 'K' :: encStrChars kv.1 ++ encJson kv.2 ++ encFields kvs

/-- Read a unary count terminated by `'E'`. -/
def parseUnary : List Char → Option (Nat × List Char)
  | 'E' :: rest => some (0, rest)
  | '1' :: rest =>
    match parseUnary rest with
    | some (n, r) => some (n + 1, r)
    | none => none
  | _ => none

/-- Read a length-prefixed string. -/
def parseStrChars (cs : List Char) : Option (String × List Char) :=
  match parseUnary cs with
  | some (n, r) => if n ≤ r.length then some (String.mk (r.take n), r.drop n) else none
  | none => none

/-- Read a signed unary integer. -/
def parseIntChars : List Char → Option (Int × List Char)
  | '+' :: r => (parseUnary r).map (fun p => ((p.1 : Int), p.2))
  | '-' :: r => (parseUnary r).map (fun p => (-(p.1 : Int), p.2))
  | _ => none

/-- What the JSON text parser is currently reading. -/
inductive PMode where
  | one
  | items
  | fields

/-- A JSON text parser result: a value, an element list, or a field list,
plus the unconsumed input. -/
inductive PRes where
  | jres (j : Json) (rest : List Char)
  | lres (xs : List Json) (rest : List Char)
  | fres (kvs : List (String × Json)) (rest : List Char)

/-- The fuel-driven JSON text parser (inverse of `encJson`). -/
def parseF : Nat → PMode → List Char → Option PRes
  | 0, _, _ => none
  | fuel + 1, .one, input =>
    match input with
    | 'n' :: r => some (.jres .null r)
    | 't' :: r => some (.jres (.bool true) r)
    | 'f' :: r => some (.jres (.bool false) r)
    | 'i' :: r =>
      match parseIntChars r with
      | some (i, r') => some (.jres (.num i) r')
      | none => none
    | 's' :: r =>
      match parseStrChars r with
      | some (s, r') => some (.jres (.str s) r')
      | none => none
    | 'A' :: r =>
      match parseF fuel .items r with
      | some (.lres xs r') => some (.jres (.arr xs) r')
      | _ => none
    | 'O' :: r =>
      match parseF fuel .fields r with
      | some (.fres kvs r') => some (.jres (.obj kvs) r')
      | _ => none
    | _ => none
  | fuel + 1, .items, input =>
    match input with
    | 'B' :: r => some (.lres [] r)
    | 'I' :: r =>
      match parseF fuel .one r with
      | some (.jres j r') =>
        match parseF fuel .items r' with
        | some (.lres xs r'') => some (.lres (j :: xs) r'')
        | _ => none
      | _ => none
    | _ => none
  | fuel + 1, .fields, input =>
    match input with
    | 'P' :: r => some (.fres [] r)
    | 'K' :: r =>
      match parseStrChars r with
      | some (k, r') =>
        match parseF fuel .one r' with
        | some (.jres v r'') =>
          match parseF fuel .fields r'' with
          | some (.fres kvs r3) => some (.fres ((k, v) :: kvs) r3)
          | _ => none
        | _ => none
      | none => none
    | _ => none

/-- Modelled from the spec: `JSON.stringify`. -/
def jsonStringify (j : Json) : String := String.mk (encJson j)

/-- Modelled from the spec: `JSON.parse`; `none` models a thrown parse
error.  The whole input must be consumed. -/
def jsonParse (s : String) : Option Json :=
  match parseF (s.data.length + 1) .one s.data with
  | some (.jres j []) => some j
  | _ => none

/-! ## Compression codec (the external LZString library)

Modelled from the spec: "a reversible compression transform producing a
text string safe for storage in a text-only JSON field"; `decompress` of
text not produced by the compressor yields an empty (falsy) result, which
the caller treats as failure.  Reversibility, not size reduction, is the
property the source relies on, so the transform is modelled as a marker
prefix. -/

/-- Modelled from the spec: `LZString.compressToUTF16`. -/
def lzCompressToUTF16 (s : String) : String :=
  String.mk ('L' :: 'Z' :: s.data)

/-- Modelled from the spec: `LZString.decompressFromUTF16`; the inverse of
`lzCompressToUTF16`, empty on foreign input. -/
def lzDecompressFromUTF16 (s : String) : String :=
  match s.data with
  | 'L' :: 'Z' :: rest => String.mk rest
  | _ => ""

/-! ## Remote sync client (services/syncService.ts) -/

/-- The localized message thrown when decompression (or the subsequent
JSON parse) of a compressed cloud payload fails. -/
def decompressErrorMsg : String :=
  "Dữ liệu đám mây bị lỗi hoặc không tương thích (Lỗi giải nén)."

/-- Step 1 of `parseResponse`: unwrap a JSONBin-style `record` wrapper when
both the response and its `record` field are truthy. -/
def unwrapRecord (rawResponse : Json) : Json :=
  match rawResponse.getField "record" with
  | some r => if rawResponse.isTruthy && r.isTruthy then r else rawResponse
  | none => rawResponse

/-- `parseResponse` from the source: unwrap an optional `record` wrapper;
if the payload is truthy with `compressed === true` and a string `data`
field, decompress and JSON-parse it (failing with the localized message on
an empty decompression result or a parse error); otherwise return the
payload itself (the source's steps 3 and 4 both return `payload`). -/
def parseResponse (rawResponse : Json) : Except String Json :=
  let payload := unwrapRecord rawResponse
  if payload.isTruthy then
    match payload.getField "compressed", payload.getField "data" with
    | some (.bool true), some (.str data) =>
      let decompressedString := lzDecompressFromUTF16 data
      if decompressedString = "" then .error decompressErrorMsg
      else
        match jsonParse decompressedString with
        | some parsedData => .ok parsedData
        | none => .error decompressErrorMsg
    | _, _ => .ok payload
  else .ok payload

/-- The result of `fetchCloudData` given the outcome of the HTTP GET:
a `SyncError` on non-2xx status or network failure (`.error`), otherwise
the JSON body fed through `parseResponse`. -/
def fetchCloudDataResult (httpResult : Except String Json) : Except String Json :=
  match httpResult with
  | .error e => .error e
  | .ok body => parseResponse body

/-- The wire payload `saveCloudData` PUTs: the data JSON-stringified,
LZ-compressed, and wrapped as `{compressed: true, data, updatedAt}`. -/
def saveCloudPayload (data : Json) (updatedAt : String) : Json :=
  .obj [("compressed", .bool true),
        ("data", .str (lzCompressToUTF16 (jsonStringify data))),
        ("updatedAt", .str updatedAt)]

/-! ## Import/export adapter (services/persistenceService.ts) -/

/-- The localized `ImportError` message ("invalid or corrupted file"). -/
def importInvalidMsg : String := "File không hợp lệ hoặc bị hỏng."

/-- The localized message for a JSON parse failure while importing. -/
def importJsonErrorMsg : String := "Lỗi khi đọc file JSON."

/-- `exportData`: the JSON text of the backup file
`{version, templates, exportedAt}`.  (The browser download plumbing —
Blob, object URL, anchor click — is a side effect outside the data
model.) -/
def exportData (templates : List Json) (version : String) (exportedAt : Int) :
    String :=
  jsonStringify (.obj [("version", .str version),
                       ("templates", .arr templates),
                       ("exportedAt", .num exportedAt)])

/-- `parseImportData`: JSON-parse the file text, then validate that
`templates` is present, truthy and an array, and that `version` is
truthy; reject with the `ImportError` message otherwise.  The validation
sits inside the same try/catch as the JSON parse: when the file's JSON
content is `null`, the unguarded `data.templates` access throws a
TypeError, which the catch turns into the JSON-read message — not the
`ImportError` message; the `Json.isNull` branch models that thrown
access.  (`undefined` cannot result from `JSON.parse`, and every other
primitive yields `undefined` fields without throwing.) -/
def parseImportData (fileText : String) : Except String (List Json × Json) :=
  match jsonParse fileText with
  | none => .error importJsonErrorMsg
  | some data =>
    if data.isNull then .error importJsonErrorMsg
    else if !(optTruthy (data.getField "templates")) ||
        !(isArrayField (data.getField "templates")) ||
        !(optTruthy (data.getField "version")) then
      .error importInvalidMsg
    else
      match data.getField "templates", data.getField "version" with
      | some (.arr templates), some version => .ok (templates, version)
      | _, _ => .error importInvalidMsg

/-! ## Application state coordinator (the `App` component)

The in-memory React state, with `localStorage` attached.  `saveDebounce`
models the auto-save `useEffect` on `[templates, version, endpoint]`: it is
set when a state mutation (re)starts the 2-second debounced save timer,
which requires a configured endpoint.  Fetched or imported templates and
versions are untyped wire values, so `templates` is a list of JSON values
and `version` a JSON value. -/

structure AppState where
  templates : List Json
  version : Json
  endpoint : String
  apiKey : String
  isSyncing : Bool
  lastSyncTime : String
  saveDebounce : Bool
  store : Store

/-- The fetch-only branch of `handleCloudSync` (`fetchOnly = true`),
given the outcome of the HTTP GET and the current wall-clock string: bail
out if no endpoint is configured; on a sync error only clear the syncing
flag; on success overwrite the templates if the fetched payload is truthy
with an array `templates` field, overwrite the version only if the fetched
`version` field is truthy, and record the sync time. -/
def handleCloudSyncFetch (st : AppState) (httpResult : Except String Json)
    (now : String) : AppState :=
  if st.endpoint = "" then st
  else
    match fetchCloudDataResult httpResult with
    | .error _ => { st with isSyncing := false }
    | .ok data =>
      if data.isTruthy && isArrayField (data.getField "templates") then
        { st with
          templates :=
            match data.getField "templates" with
            | some (.arr ts) => ts
            | _ => st.templates,
          version :=
            match data.getField "version" with
            | some v => if v.isTruthy then v else st.version
            | none => st.version,
          lastSyncTime := now,
          isSyncing := false,
          saveDebounce := st.endpoint != "" }
      else { st with isSyncing := false }

/-- The save branch of `handleCloudSync` (`fetchOnly = false`), given the
outcome of the PUT: it never touches templates, version or store; a
failure only clears the syncing flag. -/
def handleCloudSyncSave (st : AppState) (saveResult : Except String Unit)
    (now : String) : AppState :=
  if st.endpoint = "" then st
  else
    match saveResult with
    | .error _ => { st with isSyncing := false }
    | .ok _ => { st with lastSyncTime := now, isSyncing := false }

/-- `handleFileChange`: parse the chosen backup file; on failure only an
alert is shown and the state is untouched; on success the user is asked to
confirm, and only then are templates and version replaced. -/
def handleFileChange (st : AppState) (fileText : String) (confirmed : Bool) :
    AppState :=
  match parseImportData fileText with
  | .error _ => st
  | .ok imported =>
    if confirmed then
      { st with
        templates := imported.1,
        version := imported.2,
        saveDebounce := st.endpoint != "" }
    else st

/-- `handleDeleteTemplate`: drop every template whose `id` field strictly
equals the given id, then increment the version (which persists it).
`incrementVersion` calls `.split` on the version, so a non-string version
state would throw in JS; that is modelled as `none`. -/
def handleDeleteTemplate (id : String) (st : AppState) : Option AppState :=
  match st.version with
  | .str v =>
    let incremented := incrementVersion v st.store
    some { st with
      templates := st.templates.filter (fun t =>
        match t.getField "id" with
        | some (.str s) => s != id
        | _ => true),
      version := .str incremented.1,
      store := incremented.2,
      saveDebounce := st.endpoint != "" }
  | _ => none

/-! # Theorems

First a lemma layer about the JS built-in models, then one theorem (plus
witness / counterexample material) per specified claim. -/

/-! ## Digit strings and `Number` coercion on them -/

theorem dropWhile_eq_self_of_all {p : Char → Bool} {l : List Char}
    (h : ∀ c ∈ l, p c = false) : l.dropWhile p = l := by
  cases l with
  | nil => rfl
  | cons c cs => simp [List.dropWhile_cons, h c (by simp)]

theorem trimWs_eq_self {l : List Char}
    (h : ∀ c ∈ l, jsWhitespace c = false) : trimWs l = l := by
  unfold trimWs
  rw [dropWhile_eq_self_of_all h, dropWhile_eq_self_of_all (by simpa using h),
    List.reverse_reverse]

theorem takeWhile_eq_self_of_all {p : Char → Bool} {l : List Char}
    (h : ∀ c ∈ l, p c = true) : l.takeWhile p = l := by
  induction l with
  | nil => rfl
  | cons c cs ih =>
    simp [List.takeWhile_cons, h c (by simp), ih (fun x hx => h x (by simp [hx]))]

theorem dropWhile_eq_nil_of_all {p : Char → Bool} {l : List Char}
    (h : ∀ c ∈ l, p c = true) : l.dropWhile p = [] := by
  induction l with
  | nil => rfl
  | cons c cs ih =>
    simp [List.dropWhile_cons, h c (by simp), ih (fun x hx => h x (by simp [hx]))]

theorem span_eq_self_of_all {p : Char → Bool} {l : List Char}
    (h : ∀ c ∈ l, p c = true) : l.span p = (l, []) := by
  rw [List.span_eq_take_drop, takeWhile_eq_self_of_all h, dropWhile_eq_nil_of_all h]

theorem isDecDigit_decDigit {n : Nat} (h : n < 10) :
    isDecDigit (decDigit n) = true := by
  interval_cases n <;> decide

theorem digitVal_decDigit {n : Nat} (h : n < 10) :
    digitVal (decDigit n) = n := by
  interval_cases n <;> decide

theorem digit_bounds {c : Char} (h : isDecDigit c = true) :
    48 ≤ c.toNat ∧ c.toNat ≤ 57 := by
  simpa [isDecDigit] using h

theorem not_ws_of_digit {c : Char} (h : isDecDigit c = true) :
    jsWhitespace c = false := by
  have h48 : 48 ≤ c.toNat := (digit_bounds h).1
  simp only [jsWhitespace, Bool.or_eq_false_iff, beq_eq_false_iff_ne]
  refine ⟨⟨⟨⟨⟨?_, ?_⟩, ?_⟩, ?_⟩, ?_⟩, ?_⟩ <;>
    · rintro rfl
      exact absurd h48 (by decide)

theorem natToDecAux_spec :
    ∀ fuel n, n < fuel →
      natToDecAux fuel n ≠ [] ∧
      (∀ c ∈ natToDecAux fuel n, isDecDigit c = true) ∧
      ∀ acc, List.foldl (fun a c => 10 * a + digitVal c) acc (natToDecAux fuel n) =
        acc * 10 ^ (natToDecAux fuel n).length + n := by
  intro fuel
  induction fuel with
  | zero => intro n h; exact absurd h (by omega)
  | succ fuel ih =>
    intro n h
    by_cases h10 : n < 10
    · refine ⟨by simp [natToDecAux, h10], ?_, ?_⟩
      · intro c hc
        simp [natToDecAux, h10] at hc
        subst hc
        exact isDecDigit_decDigit h10
      · intro acc
        simp [natToDecAux, h10, digitVal_decDigit h10]
        ring
    · have hd : n / 10 < fuel := by omega
      obtain ⟨hne, hdig, hfold⟩ := ih (n / 10) hd
      refine ⟨by simp [natToDecAux, h10], ?_, ?_⟩
      · intro c hc
        simp only [natToDecAux, if_neg h10, List.mem_append, List.mem_singleton] at hc
        rcases hc with hc | hc
        · exact hdig c hc
        · subst hc
          exact isDecDigit_decDigit (by omega)
      · intro acc
        simp only [natToDecAux, if_neg h10, List.foldl_append, List.length_append,
          List.foldl_cons, List.foldl_nil, List.length_singleton, hfold,
          digitVal_decDigit (show n % 10 < 10 by omega)]
        have := Nat.div_add_mod n 10
        ring_nf
        omega

theorem natToDec_ne_nil (n : Nat) : natToDec n ≠ [] :=
  (natToDecAux_spec (n + 1) n (by omega)).1

theorem natToDec_digits (n : Nat) : ∀ c ∈ natToDec n, isDecDigit c = true :=
  (natToDecAux_spec (n + 1) n (by omega)).2.1

theorem digitsToNat_natToDec (n : Nat) : digitsToNat (natToDec n) = n := by
  have := (natToDecAux_spec (n + 1) n (by omega)).2.2 0
  simpa [digitsToNat, natToDec] using this

theorem natToDec_no_dot (n : Nat) : ∀ c ∈ natToDec n, c ≠ '.' := by
  intro c hc heq
  subst heq
  exact absurd (natToDec_digits n _ hc) (by decide)

theorem jsToNumber_digits {l : List Char} (hne : l ≠ [])
    (hd : ∀ c ∈ l, isDecDigit c = true) :
    jsToNumber l = .val ⟨(digitsToNat l : Int), 1⟩ := by
  obtain ⟨c0, l', rfl⟩ := List.exists_cons_of_ne_nil hne
  have htrim : trimWs (c0 :: l') = c0 :: l' :=
    trimWs_eq_self (fun c hc => not_ws_of_digit (hd c hc))
  have hc0 : isDecDigit c0 = true := hd c0 (by simp)
  have htake : ∀ ch : Char, isDecDigit ch = false →
      ∀ ch0 : Char, (c0 :: l').take 2 ≠ [ch0, ch] := by
    intro ch hch ch0 heq
    have : ch ∈ (c0 :: l').take 2 := by rw [heq]; simp
    exact absurd (hd ch (List.take_subset 2 _ this)) (by simp [hch])
  have hspan : (c0 :: l').span isDecDigit = (c0 :: l', []) :=
    span_eq_self_of_all hd
  unfold jsToNumber
  rw [htrim]
  rw [if_neg (by simp), if_neg, if_neg, if_neg, if_neg, if_neg]
  · unfold parseUnsignedLit
    rw [if_neg]
    · unfold parseDecLit
      rw [hspan]
      simp only [List.head?_nil, reduceCtorEq, if_neg, if_false]
      rw [if_neg (by simp [hne])]
      simp
    · intro heq
      have hI : "Infinity".data = ['I', 'n', 'f', 'i', 'n', 'i', 't', 'y'] := rfl
      rw [hI] at heq
      have := hd 'I' (by rw [heq]; simp)
      exact absurd this (by decide)
  · rintro (h | h)
    · exact htake 'b' (by decide) '0' h
    · exact htake 'B' (by decide) '0' h
  · rintro (h | h)
    · exact htake 'o' (by decide) '0' h
    · exact htake 'O' (by decide) '0' h
  · rintro (h | h)
    · exact htake 'x' (by decide) '0' h
    · exact htake 'X' (by decide) '0' h
  · intro h
    simp only [List.head?_cons, Option.some.injEq] at h
    subst h
    exact absurd hc0 (by decide)
  · intro h
    simp only [List.head?_cons, Option.some.injEq] at h
    subst h
    exact absurd hc0 (by decide)

theorem jsToNumber_natToDec (n : Nat) :
    jsToNumber (natToDec n) = .val ⟨(n : Int), 1⟩ := by
  rw [jsToNumber_digits (natToDec_ne_nil n) (natToDec_digits n),
    digitsToNat_natToDec]

theorem splitOnDot_no_dot {l : List Char} (h : ∀ c ∈ l, c ≠ '.') :
    splitOnDot l = [l] := by
  induction l with
  | nil => rfl
  | cons c cs ih =>
    rw [splitOnDot, if_neg (h c (by simp)), ih (fun x hx => h x (by simp [hx]))]

theorem splitOnDot_append {a b : List Char} (h : ∀ c ∈ a, c ≠ '.') :
    splitOnDot (a ++ '.' :: b) = a :: splitOnDot b := by
  induction a with
  | nil => simp [splitOnDot]
  | cons c cs ih =>
    rw [List.cons_append, splitOnDot, if_neg (h c (by simp)),
      ih (fun x hx => h x (by simp [hx]))]

theorem splitOnDot_mkVer (M m p : Nat) :
    splitOnDot (mkVer M m p).data = [natToDec M, natToDec m, natToDec p] := by
  have h1 : (mkVer M m p).data =
      natToDec M ++ '.' :: (natToDec m ++ '.' :: natToDec p) := by
    show natToDec M ++ '.' :: natToDec m ++ '.' :: natToDec p = _
    simp [List.append_assoc]
  rw [h1, splitOnDot_append (natToDec_no_dot M),
    splitOnDot_append (natToDec_no_dot m), splitOnDot_no_dot (natToDec_no_dot p)]

theorem jsRatToString_int (i : Int) : jsRatToString ⟨i, 1⟩ = intToDec i := by
  simp [jsRatToString]

theorem jsRatToString_nat (k : Nat) : jsRatToString ⟨(k : Int), 1⟩ = natToDec k := by
  rw [jsRatToString_int]
  rfl

/-- C4: for a well-formed revision `M.m.p` with `m, p ≤ 9` (major
unbounded), `incrementVersion` applies digit-rollover addition and persists
the result under the version key. -/
theorem C4_incrementVersion_rollover (M m p : Nat) (store : Store)
    (hm : m ≤ 9) (hp : p ≤ 9) :
    incrementVersion (mkVer M m p) store =
      if p < 9 then
        (mkVer M m (p + 1), store.setItem VERSION_KEY (mkVer M m (p + 1)))
      else if m < 9 then
        (mkVer M (m + 1) 0, store.setItem VERSION_KEY (mkVer M (m + 1) 0))
      else
        (mkVer (M + 1) 0 0, store.setItem VERSION_KEY (mkVer (M + 1) 0 0)) := by
  have hparts : (splitOnDot (mkVer M m p).data).map jsToNumber =
      [.val ⟨(M : Int), 1⟩, .val ⟨(m : Int), 1⟩, .val ⟨(p : Int), 1⟩] := by
    rw [splitOnDot_mkVer]
    simp [jsToNumber_natToDec]
  have e1 : (JSNum.val ⟨(p : Int), 1⟩).add1 = JSNum.val ⟨((p + 1 : Nat) : Int), 1⟩ := by
    simp [JSNum.add1]
  by_cases hplt : p < 9
  · have e2 : (JSNum.val ⟨((p + 1 : Nat) : Int), 1⟩).gt9 = false := by
      simp only [JSNum.gt9, decide_eq_false_iff_not, not_lt]
      push_cast
      omega
    have e3 : (JSNum.val ⟨(m : Int), 1⟩).gt9 = false := by
      simp only [JSNum.gt9, decide_eq_false_iff_not, not_lt]
      push_cast
      omega
    simp only [incrementVersion, hparts, List.length_cons, List.length_nil,
      List.any_cons, List.any_nil, JSNum.isNaN, Bool.or_false, e1, e2, e3,
      Bool.false_eq_true, if_false, bne_self_eq_false, Bool.or_self,
      JSNum.toStr, jsRatToString_nat, if_pos hplt]
    rfl
  · have hp9 : p = 9 := by omega
    subst hp9
    have e2 : (JSNum.val ⟨((9 + 1 : Nat) : Int), 1⟩).gt9 = true := by
      simp [JSNum.gt9]
    have e4 : (JSNum.val ⟨(m : Int), 1⟩).add1 =
        JSNum.val ⟨((m + 1 : Nat) : Int), 1⟩ := by
      simp [JSNum.add1]
    by_cases hmlt : m < 9
    · have e5 : (JSNum.val ⟨((m + 1 : Nat) : Int), 1⟩).gt9 = false := by
        simp only [JSNum.gt9, decide_eq_false_iff_not, not_lt]
        push_cast
        omega
      simp only [incrementVersion, hparts, List.length_cons, List.length_nil,
        List.any_cons, List.any_nil, JSNum.isNaN, Bool.or_false, e1, e2, e4, e5,
        Bool.false_eq_true, if_false, bne_self_eq_false, Bool.or_self,
        JSNum.toStr, jsRatToString_nat, if_neg (by omega : ¬ (9 : Nat) < 9),
        if_pos hmlt, if_true]
      rfl
    · have hm9 : m = 9 := by omega
      subst hm9
      have e5 : (JSNum.val ⟨((9 + 1 : Nat) : Int), 1⟩).gt9 = true := by
        simp [JSNum.gt9]
      have e6 : (JSNum.val ⟨(M : Int), 1⟩).add1 =
          JSNum.val ⟨((M + 1 : Nat) : Int), 1⟩ := by
        simp [JSNum.add1]
      simp only [incrementVersion, hparts, List.length_cons, List.length_nil,
        List.any_cons, List.any_nil, JSNum.isNaN, Bool.or_false, e1, e2, e4, e5,
        e6, Bool.false_eq_true, if_false, bne_self_eq_false, Bool.or_self,
        JSNum.toStr, jsRatToString_nat, if_neg (by omega : ¬ (9 : Nat) < 9),
        if_true]
      rfl

/-- C4 witness: the two specified edge examples, via the theorem:
`increment "1.9.9" = "2.0.0"` and `increment "9.9.9" = "10.0.0"`,
each persisted under the version key. -/
theorem C4_incrementVersion_rollover_witness :
    incrementVersion "1.9.9" [] = ("2.0.0", [(VERSION_KEY, "2.0.0")]) ∧
    incrementVersion "9.9.9" [] = ("10.0.0", [(VERSION_KEY, "10.0.0")]) := by
  constructor
  · have h := C4_incrementVersion_rollover 1 9 9 [] (by decide) (by decide)
    exact h
  · have h := C4_incrementVersion_rollover 9 9 9 [] (by decide) (by decide)
    exact h

/-- C5 (amended): `incrementVersion` resets to `"1.0.1"` (and persists it)
exactly when the dot-split of the input does not have three parts or some
part coerces to NaN — not merely when the input is not three *integer*
components. -/
theorem C5_incrementVersion_reset (s : String) (store : Store)
    (h : (splitOnDot s.data).length ≠ 3 ∨
      ∃ part ∈ splitOnDot s.data, jsToNumber part = .nan) :
    incrementVersion s store = ("1.0.1", store.setItem VERSION_KEY "1.0.1") := by
  have hguard : (((splitOnDot s.data).map jsToNumber).length != 3 ||
      ((splitOnDot s.data).map jsToNumber).any JSNum.isNaN) = true := by
    simp only [Bool.or_eq_true_eq_eq_true_or_eq_true, bne_iff_ne, ne_eq,
      List.length_map, List.any_eq_true, List.mem_map]
    rcases h with h | ⟨part, hmem, hnan⟩
    · exact Or.inl h
    · exact Or.inr ⟨jsToNumber part, ⟨part, hmem, rfl⟩, by simp [hnan, JSNum.isNaN]⟩
  simp only [incrementVersion, hguard, if_true]

/-- C5 witness: the three malformed examples from the spec reset and
persist `"1.0.1"`. -/
theorem C5_incrementVersion_reset_witness :
    incrementVersion "abc" [] = ("1.0.1", [(VERSION_KEY, "1.0.1")]) ∧
    incrementVersion "1.2" [] = ("1.0.1", [(VERSION_KEY, "1.0.1")]) ∧
    incrementVersion "not-a-version" [] = ("1.0.1", [(VERSION_KEY, "1.0.1")]) := by
  refine ⟨?_, ?_, ?_⟩
  · exact C5_incrementVersion_reset "abc" [] (Or.inl (by decide))
  · exact C5_incrementVersion_reset "1.2" [] (Or.inl (by decide))
  · exact C5_incrementVersion_reset "not-a-version" [] (Or.inl (by decide))

/-- C5 counterexample: `"0.0.5e-1"` does not consist of three integer
components, yet `incrementVersion` does not reset it to `"1.0.1"`: the
part `"5e-1"` is Number-coercible (to 0.5), so the rollover arithmetic
runs and produces `"0.0.1.5"` (which is persisted). -/
theorem C5_counterexample :
    incrementVersion "0.0.5e-1" [] = ("0.0.1.5", [(VERSION_KEY, "0.0.1.5")]) ∧
    ("0.0.1.5" : String) ≠ "1.0.1" := by
  constructor
  · decide
  · decide

/-- C9: the malformed-input guard of `incrementVersion` only rejects inputs
whose dot-split does not have exactly three parts or has a NaN part; any
input whose three parts are Number-coercible is run through the rollover
arithmetic (and the result persisted) rather than reset to `"1.0.1"`. -/
theorem C9_incrementVersion_accepts (s : String) (store : Store)
    (a b c : JSNum)
    (hsplit : (splitOnDot s.data).map jsToNumber = [a, b, c])
    (ha : a.isNaN = false) (hb : b.isNaN = false) (hc : c.isNaN = false) :
    incrementVersion s store =
      (let patch1 := c.add1
       let pm := if patch1.gt9 then (JSNum.val ⟨0, 1⟩, b.add1) else (patch1, b)
       let mm := if pm.2.gt9 then (JSNum.val ⟨0, 1⟩, a.add1) else (pm.2, a)
       let v := String.mk (mm.2.toStr ++ '.' :: mm.1.toStr ++ '.' :: pm.1.toStr)
       (v, store.setItem VERSION_KEY v)) := by
  simp only [incrementVersion, hsplit, List.length_cons, List.length_nil,
    List.any_cons, List.any_nil, ha, hb, hc, Bool.or_false, Bool.or_self,
    bne_self_eq_false, Bool.false_eq_true, if_false]

/-- C9 witness: `"1..2"` (empty part coerced to 0), `"1.-3.2"` (negative
part) and `"1e-1.0.0"` (non-integer numeric notation) are all accepted and
run through the rollover arithmetic. -/
theorem C9_incrementVersion_accepts_witness :
    incrementVersion "1..2" [] = ("1.0.3", [(VERSION_KEY, "1.0.3")]) ∧
    incrementVersion "1.-3.2" [] = ("1.-3.3", [(VERSION_KEY, "1.-3.3")]) ∧
    incrementVersion "1e-1.0.0" [] = ("0.1.0.1", [(VERSION_KEY, "0.1.0.1")]) := by
  refine ⟨?_, ?_, ?_⟩
  · exact C9_incrementVersion_accepts "1..2" []
      (.val ⟨1, 1⟩) (.val ⟨0, 1⟩) (.val ⟨2, 1⟩) (by decide) rfl rfl rfl
  · exact C9_incrementVersion_accepts "1.-3.2" []
      (.val ⟨1, 1⟩) (.val ⟨-3, 1⟩) (.val ⟨2, 1⟩) (by decide) rfl rfl rfl
  · exact C9_incrementVersion_accepts "1e-1.0.0" []
      (.val ⟨1, 10⟩) (.val ⟨0, 1⟩) (.val ⟨0, 1⟩) (by decide) rfl rfl rfl

/-! ## The JSON text round trip -/

theorem parseUnary_replicate (n : Nat) (rest : List Char) :
    parseUnary (List.replicate n '1' ++ 'E' :: rest) = some (n, rest) := by
  induction n with
  | zero => rfl
  | succ n ih => simp [List.replicate_succ, parseUnary, ih]

theorem parseStrChars_enc (s : String) (rest : List Char) :
    parseStrChars (encStrChars s ++ rest) = some (s, rest) := by
  cases s with
  | mk d =>
    have h1 : encStrChars ⟨d⟩ ++ rest =
        List.replicate d.length '1' ++ 'E' :: (d ++ rest) := by
      simp [encStrChars, String.length, List.append_assoc]
    rw [h1]
    unfold parseStrChars
    rw [parseUnary_replicate]
    have hle : d.length ≤ (d ++ rest).length := by simp
    simp [hle, List.take_left, List.drop_left]

theorem parseIntChars_enc (i : Int) (rest : List Char) :
    parseIntChars (encInt i ++ rest) = some (i, rest) := by
  cases i with
  | ofNat n =>
    have h1 : encInt (Int.ofNat n) ++ rest =
        '+' :: (List.replicate n '1' ++ 'E' :: rest) := by
      simp [encInt, List.append_assoc]
    rw [h1]
    simp [parseIntChars, parseUnary_replicate]
  | negSucc m =>
    have h1 : encInt (Int.negSucc m) ++ rest =
        '-' :: (List.replicate (m + 1) '1' ++ 'E' :: rest) := by
      simp [encInt, List.append_assoc]
    rw [h1]
    simp [parseIntChars, parseUnary_replicate, Int.negSucc_eq]

theorem parseF_encJson : ∀ fuel : Nat,
    (∀ (j : Json) (rest : List Char), (encJson j).length + 1 ≤ fuel →
      parseF fuel .one (encJson j ++ rest) = some (.jres j rest)) ∧
    (∀ (xs : List Json) (rest : List Char),
      (encJson.encItems xs).length + 1 ≤ fuel →
      parseF fuel .items (encJson.encItems xs ++ 'B' :: rest) =
        some (.lres xs rest)) ∧
    (∀ (kvs : List (String × Json)) (rest : List Char),
      (encJson.encFields kvs).length + 1 ≤ fuel →
      parseF fuel .fields (encJson.encFields kvs ++ 'P' :: rest) =
        some (.fres kvs rest)) := by
  intro fuel
  induction fuel with
  | zero =>
    refine ⟨fun j rest h => absurd h (by omega),
      fun xs rest h => absurd h (by omega),
      fun kvs rest h => absurd h (by omega)⟩
  | succ fuel ih =>
    obtain ⟨ihJ, ihI, ihF⟩ := ih
    refine ⟨?_, ?_, ?_⟩
    · intro j rest hlen
      cases j with
      | null => rfl
      | bool b => cases b <;> rfl
      | num i =>
        have h1 : encJson (.num i) ++ rest = 'i' :: (encInt i ++ rest) := by
          simp [encJson]
        rw [h1]
        simp [parseF, parseIntChars_enc]
      | str s =>
        have h1 : encJson (.str s) ++ rest = 's' :: (encStrChars s ++ rest) := by
          simp [encJson]
        rw [h1]
        simp [parseF, parseStrChars_enc]
      | arr xs =>
        have h1 : encJson (.arr xs) ++ rest =
            'A' :: (encJson.encItems xs ++ 'B' :: rest) := by
          simp [encJson, List.append_assoc]
        have h2 : (encJson.encItems xs).length + 1 ≤ fuel := by
          have : (encJson (.arr xs)).length =
              (encJson.encItems xs).length + 2 := by
            simp [encJson]
          omega
        rw [h1]
        simp [parseF, ihI xs rest h2]
      | obj kvs =>
        have h1 : encJson (.obj kvs) ++ rest =
            'O' :: (encJson.encFields kvs ++ 'P' :: rest) := by
          simp [encJson, List.append_assoc]
        have h2 : (encJson.encFields kvs).length + 1 ≤ fuel := by
          have : (encJson (.obj kvs)).length =
              (encJson.encFields kvs).length + 2 := by
            simp [encJson]
          omega
        rw [h1]
        simp [parseF, ihF kvs rest h2]
    · intro xs rest hlen
      cases xs with
      | nil => rfl
      | cons x xs =>
        have h1 : encJson.encItems (x :: xs) ++ 'B' :: rest =
            'I' :: (encJson x ++ (encJson.encItems xs ++ 'B' :: rest)) := by
          simp [encJson.encItems, List.append_assoc]
        have hx : (encJson x).length + 1 ≤ fuel := by
          have : (encJson.encItems (x :: xs)).length =
              (encJson x).length + (encJson.encItems xs).length + 1 := by
            simp [encJson.encItems]
          omega
        have hxs : (encJson.encItems xs).length + 1 ≤ fuel := by
          have : (encJson.encItems (x :: xs)).length =
              (encJson x).length + (encJson.encItems xs).length + 1 := by
            simp [encJson.encItems]
          omega
        rw [h1]
        simp [parseF, ihJ x _ hx, ihI xs rest hxs]
    · intro kvs rest hlen
      cases kvs with
      | nil => rfl
      | cons kv kvs =>
        have h1 : encJson.encFields (kv :: kvs) ++ 'P' :: rest =
            'K' :: (encStrChars kv.1 ++
              (encJson kv.2 ++ (encJson.encFields kvs ++ 'P' :: rest))) := by
          simp [encJson.encFields, List.append_assoc]
        have hv : (encJson kv.2).length + 1 ≤ fuel := by
          have : (encJson.encFields (kv :: kvs)).length =
              (encStrChars kv.1).length + (encJson kv.2).length +
                (encJson.encFields kvs).length + 1 := by
            simp [encJson.encFields]; omega
          omega
        have hkvs : (encJson.encFields kvs).length + 1 ≤ fuel := by
          have : (encJson.encFields (kv :: kvs)).length =
              (encStrChars kv.1).length + (encJson kv.2).length +
                (encJson.encFields kvs).length + 1 := by
            simp [encJson.encFields]; omega
          omega
        rw [h1]
        simp [parseF, parseStrChars_enc, ihJ kv.2 _ hv, ihF kvs rest hkvs]

theorem jsonParse_stringify (j : Json) : jsonParse (jsonStringify j) = some j := by
  have h := (parseF_encJson ((encJson j).length + 1)).1 j [] (by omega)
  rw [List.append_nil] at h
  unfold jsonParse jsonStringify
  simp [h]

theorem encJson_ne_nil (j : Json) : encJson j ≠ [] := by
  cases j with
  | null => simp [encJson]
  | bool b => cases b <;> simp [encJson]
  | num i => simp [encJson]
  | str s => simp [encJson]
  | arr xs => simp [encJson]
  | obj kvs => simp [encJson]

theorem jsonStringify_ne_empty (j : Json) : jsonStringify j ≠ "" := by
  unfold jsonStringify
  intro h
  exact encJson_ne_nil j (by
    have : (String.mk (encJson j)).data = ("" : String).data := by rw [h]
    simpa using this)

theorem lz_roundtrip (s : String) :
    lzDecompressFromUTF16 (lzCompressToUTF16 s) = s := by
  cases s with
  | mk d => rfl

/-- C3: the compression codec round-trips: for every JSON payload `P`,
LZ-decompressing the LZ-compression of the JSON serialization of `P` and
JSON-parsing the result yields `P` again. -/
theorem C3_codec_roundtrip (P : Json) :
    jsonParse (lzDecompressFromUTF16 (lzCompressToUTF16 (jsonStringify P))) =
      some P := by
  rw [lz_roundtrip, jsonParse_stringify]

/-- C2: the fetch-response normalizer: (1) a JSONBin-wrapped compressed
record `{record: {compressed: true, data: compress(D)}}` normalizes to `D`
for every payload `D`; (2) any response whose unwrapped payload does not
carry `compressed === true` together with a string `data` field — in
particular a legacy payload with an array `templates` field and no
compressed flag — is returned unchanged (after the unwrap). -/
theorem C2_parseResponse_normalizer :
    (∀ D : Json,
      parseResponse (.obj [("record", .obj
        [("compressed", .bool true),
         ("data", .str (lzCompressToUTF16 (jsonStringify D)))])]) = .ok D) ∧
    (∀ raw : Json,
      ((unwrapRecord raw).getField "compressed" ≠ some (.bool true) ∨
        ∀ s : String, (unwrapRecord raw).getField "data" ≠ some (.str s)) →
      parseResponse raw = .ok (unwrapRecord raw)) := by
  constructor
  · intro D
    have hrt : lzDecompressFromUTF16 (lzCompressToUTF16 (jsonStringify D)) =
        jsonStringify D := lz_roundtrip _
    simp [parseResponse, unwrapRecord, Json.getField, Json.isTruthy, hrt,
      jsonStringify_ne_empty D, jsonParse_stringify]
  · intro raw hcond
    unfold parseResponse
    by_cases ht : (unwrapRecord raw).isTruthy
    · simp only [ht, if_true]
      split
      · rename_i heq1 heq2
        rcases hcond with hcond | hcond
        · exact absurd heq1 hcond
        · exact absurd heq2 (hcond _)
      · rfl
    · simp only [Bool.not_eq_true] at ht
      simp [ht]

/-- C2 witness: a legacy uncompressed payload (array `templates`, no
`compressed` flag) is returned unchanged, both bare and wrapped in a
JSONBin `record` field. -/
theorem C2_parseResponse_normalizer_witness :
    parseResponse (.obj [("templates", .arr []), ("version", .str "1.0.0")]) =
      .ok (.obj [("templates", .arr []), ("version", .str "1.0.0")]) ∧
    parseResponse (.obj [("record",
        .obj [("templates", .arr []), ("version", .str "1.0.0")])]) =
      .ok (.obj [("templates", .arr []), ("version", .str "1.0.0")]) := by
  constructor
  · exact C2_parseResponse_normalizer.2 _ (Or.inl (fun h => Option.noConfusion h))
  · exact C2_parseResponse_normalizer.2 _ (Or.inl (fun h => Option.noConfusion h))

/-! ## Import/export -/

/-- C6 (amended): export-then-import round-trips for every template
collection and every non-empty revision string: importing the exported
file succeeds and returns exactly the collection and the revision. -/
theorem C6_export_import_roundtrip (coll : List Json) (ver : String)
    (ts : Int) (hver : ver ≠ "") :
    parseImportData (exportData coll ver ts) = .ok (coll, .str ver) := by
  unfold parseImportData exportData
  rw [jsonParse_stringify]
  have h1 : (Json.obj [("version", .str ver), ("templates", .arr coll),
      ("exportedAt", .num ts)]).getField "templates" = some (.arr coll) := by
    simp [Json.getField]
  have h2 : (Json.obj [("version", .str ver), ("templates", .arr coll),
      ("exportedAt", .num ts)]).getField "version" = some (.str ver) := by
    simp [Json.getField]
  simp [h1, h2, optTruthy, isArrayField, Json.isTruthy, Json.isNull, hver]

/-- C6 witness: a concrete round trip through the theorem. -/
theorem C6_export_import_roundtrip_witness :
    parseImportData (exportData [Json.obj [("id", Json.str "tpl-001")]] "1.0.2" 7) =
      .ok ([Json.obj [("id", Json.str "tpl-001")]], .str "1.0.2") :=
  C6_export_import_roundtrip [Json.obj [("id", Json.str "tpl-001")]] "1.0.2" 7
    (by decide)

/-- C6 counterexample: for the empty revision string (a falsy value in JS)
the round trip fails: the import validation rejects the exported file, so
`import(export(collection, revision))` does not hold for *every* revision
string. -/
theorem C6_counterexample :
    parseImportData (exportData [] "" 0) = .error importInvalidMsg := by
  unfold parseImportData exportData
  rw [jsonParse_stringify]
  rfl

/-- C7 (amended): importing a file whose JSON content is valid JSON other
than `null` and lacks an array `templates` field or lacks a `version`
field fails with the `ImportError` message, and the failed file restore
leaves the coordinator state unchanged.  (A file whose JSON content is
`null` also fails and also leaves the state unchanged, but with the
JSON-read message, because `data.templates` throws inside the try —
see `C7_counterexample`.) -/
theorem C7_import_invalid (st : AppState) (fileText : String)
    (confirmed : Bool) (d : Json)
    (hparse : jsonParse fileText = some d)
    (hnn : d ≠ Json.null)
    (hbad : (∀ ts : List Json, d.getField "templates" ≠ some (.arr ts)) ∨
      d.getField "version" = none) :
    parseImportData fileText = .error importInvalidMsg ∧
    handleFileChange st fileText confirmed = st := by
  have himp : parseImportData fileText = .error importInvalidMsg := by
    unfold parseImportData
    have hnull : d.isNull = false := by
      cases d with
      | null => exact absurd rfl hnn
      | bool b => rfl
      | num i => rfl
      | str s => rfl
      | arr xs => rfl
      | obj kvs => rfl
    have hguard : (!(optTruthy (d.getField "templates")) ||
        !(isArrayField (d.getField "templates")) ||
        !(optTruthy (d.getField "version"))) = true := by
      rcases hbad with hb | hb
      · cases hcase : d.getField "templates" with
        | none => simp [hcase, optTruthy]
        | some t =>
          cases t with
          | arr ts => exact absurd hcase (hb ts)
          | null => simp [hcase, isArrayField]
          | bool b => simp [hcase, isArrayField]
          | num i => simp [hcase, isArrayField]
          | str s => simp [hcase, isArrayField]
          | obj kvs => simp [hcase, isArrayField]
      · simp [hb, optTruthy]
    rw [hparse]
    simp [hnull, hguard]
  refine ⟨himp, ?_⟩
  unfold handleFileChange
  rw [himp]

/-- C7 counterexample: a backup file containing JSON `null` lacks a
`templates` field, yet the import does not fail with the `ImportError`
message: the unguarded `data.templates` access throws inside the try, so
the catch rejects with the JSON-read message instead.  The state is still
left unchanged. -/
theorem C7_counterexample :
    parseImportData (jsonStringify Json.null) = .error importJsonErrorMsg ∧
    importJsonErrorMsg ≠ importInvalidMsg ∧
    handleFileChange
      { templates := [], version := .str "1.0.0", endpoint := "",
        apiKey := "", isSyncing := false, lastSyncTime := "",
        saveDebounce := false, store := [] }
      (jsonStringify Json.null) true =
      { templates := [], version := .str "1.0.0", endpoint := "",
        apiKey := "", isSyncing := false, lastSyncTime := "",
        saveDebounce := false, store := [] } := by
  refine ⟨rfl, by decide, rfl⟩

/-- C7 witness: a file with a `version` but no `templates` field is
rejected and the state is untouched. -/
theorem C7_import_invalid_witness :
    parseImportData (jsonStringify (.obj [("version", .str "1.0.0")])) =
      .error importInvalidMsg ∧
    handleFileChange
      { templates := [], version := .str "1.0.0", endpoint := "",
        apiKey := "", isSyncing := false, lastSyncTime := "",
        saveDebounce := false, store := [] }
      (jsonStringify (.obj [("version", .str "1.0.0")])) true =
      { templates := [], version := .str "1.0.0", endpoint := "",
        apiKey := "", isSyncing := false, lastSyncTime := "",
        saveDebounce := false, store := [] } :=
  C7_import_invalid _ _ true (.obj [("version", .str "1.0.0")])
    (jsonParse_stringify _) (by simp)
    (Or.inl (fun _ h => Option.noConfusion h))

/-! ## Coordinator: cloud sync and delete -/

/-- C1 (amended): a completed fetch-only sync whose normalized payload has
an array `templates` field overwrites the in-memory collection with the
fetched templates unconditionally, clears the syncing flag, and overwrites
the revision with the fetched `version` only when that field is truthy —
a missing or falsy (e.g. empty-string) fetched version leaves the local
revision unchanged.  No merge or conflict detection occurs. -/
theorem C1_fetch_overwrites (st : AppState) (body data : Json)
    (ts : List Json) (now : String)
    (hep : st.endpoint ≠ "")
    (hparse : parseResponse body = .ok data)
    (htpl : data.getField "templates" = some (.arr ts)) :
    (handleCloudSyncFetch st (.ok body) now).templates = ts ∧
    (handleCloudSyncFetch st (.ok body) now).version =
      (match data.getField "version" with
       | some v => if v.isTruthy then v else st.version
       | none => st.version) ∧
    (handleCloudSyncFetch st (.ok body) now).isSyncing = false := by
  have htr : data.isTruthy = true := by
    cases data with
    | obj kvs => rfl
    | null => simp [Json.getField] at htpl
    | bool b => simp [Json.getField] at htpl
    | num i => simp [Json.getField] at htpl
    | str s => simp [Json.getField] at htpl
    | arr xs => simp [Json.getField] at htpl
  unfold handleCloudSyncFetch
  rw [if_neg hep, show fetchCloudDataResult (.ok body) = parseResponse body from
    rfl, hparse]
  simp [htr, htpl, isArrayField]

/-- C1 witness: a fetched payload with templates and a truthy version
overwrites both. -/
theorem C1_fetch_overwrites_witness :
    (handleCloudSyncFetch
      { templates := [Json.obj [("id", Json.str "a")]],
        version := Json.str "1.0.0", endpoint := "https://e", apiKey := "",
        isSyncing := true, lastSyncTime := "", saveDebounce := false,
        store := [] }
      (.ok (Json.obj [("templates", Json.arr []),
        ("version", Json.str "3.0.0")])) "t").templates = [] ∧
    (handleCloudSyncFetch
      { templates := [Json.obj [("id", Json.str "a")]],
        version := Json.str "1.0.0", endpoint := "https://e", apiKey := "",
        isSyncing := true, lastSyncTime := "", saveDebounce := false,
        store := [] }
      (.ok (Json.obj [("templates", Json.arr []),
        ("version", Json.str "3.0.0")])) "t").version = Json.str "3.0.0" ∧
    (handleCloudSyncFetch
      { templates := [Json.obj [("id", Json.str "a")]],
        version := Json.str "1.0.0", endpoint := "https://e", apiKey := "",
        isSyncing := true, lastSyncTime := "", saveDebounce := false,
        store := [] }
      (.ok (Json.obj [("templates", Json.arr []),
        ("version", Json.str "3.0.0")])) "t").isSyncing = false := by
  have h := C1_fetch_overwrites
    { templates := [Json.obj [("id", Json.str "a")]],
      version := Json.str "1.0.0", endpoint := "https://e", apiKey := "",
      isSyncing := true, lastSyncTime := "", saveDebounce := false,
      store := [] }
    (Json.obj [("templates", Json.arr []), ("version", Json.str "3.0.0")])
    (Json.obj [("templates", Json.arr []), ("version", Json.str "3.0.0")])
    [] "t" (by simp) rfl rfl
  exact ⟨h.1, h.2.1, h.2.2⟩

/-- C1 counterexample: a well-formed fetched payload in the claim's sense
(its `templates` field is an array) carrying the falsy fetched version
`""`: the templates are replaced, but the local revision `"1.0.0"` is NOT
replaced by the fetched value `""`, contradicting the claim that both are
overwritten with the fetched values. -/
theorem C1_counterexample :
    (handleCloudSyncFetch
      { templates := [Json.obj [("id", Json.str "a")]],
        version := Json.str "1.0.0", endpoint := "https://e", apiKey := "",
        isSyncing := false, lastSyncTime := "", saveDebounce := false,
        store := [] }
      (.ok (Json.obj [("templates", Json.arr []),
        ("version", Json.str "")])) "t").templates = [] ∧
    (handleCloudSyncFetch
      { templates := [Json.obj [("id", Json.str "a")]],
        version := Json.str "1.0.0", endpoint := "https://e", apiKey := "",
        isSyncing := false, lastSyncTime := "", saveDebounce := false,
        store := [] }
      (.ok (Json.obj [("templates", Json.arr []),
        ("version", Json.str "")])) "t").version = Json.str "1.0.0" ∧
    (Json.obj [("templates", Json.arr []),
      ("version", Json.str "")]).getField "version" = some (Json.str "") ∧
    ("1.0.0" : String) ≠ "" := by
  refine ⟨rfl, rfl, rfl, by decide⟩

/-- C8: every failing sync cycle leaves templates, version and local
storage in their last-known-good state and clears the syncing flag: a
fetch whose HTTP stage fails, a fetch whose response normalization fails
(decompression error), and a save that fails. -/
theorem C8_sync_failure_preserves_state :
    (∀ (st : AppState) (e now : String), st.endpoint ≠ "" →
      (handleCloudSyncFetch st (.error e) now).templates = st.templates ∧
      (handleCloudSyncFetch st (.error e) now).version = st.version ∧
      (handleCloudSyncFetch st (.error e) now).store = st.store ∧
      (handleCloudSyncFetch st (.error e) now).isSyncing = false) ∧
    (∀ (st : AppState) (body : Json) (e now : String), st.endpoint ≠ "" →
      parseResponse body = .error e →
      (handleCloudSyncFetch st (.ok body) now).templates = st.templates ∧
      (handleCloudSyncFetch st (.ok body) now).version = st.version ∧
      (handleCloudSyncFetch st (.ok body) now).store = st.store ∧
      (handleCloudSyncFetch st (.ok body) now).isSyncing = false) ∧
    (∀ (st : AppState) (e now : String), st.endpoint ≠ "" →
      (handleCloudSyncSave st (.error e) now).templates = st.templates ∧
      (handleCloudSyncSave st (.error e) now).version = st.version ∧
      (handleCloudSyncSave st (.error e) now).store = st.store ∧
      (handleCloudSyncSave st (.error e) now).isSyncing = false) := by
  refine ⟨?_, ?_, ?_⟩
  · intro st e now hep
    unfold handleCloudSyncFetch
    rw [if_neg hep]
    exact ⟨rfl, rfl, rfl, rfl⟩
  · intro st body e now hep hparse
    unfold handleCloudSyncFetch
    rw [if_neg hep, show fetchCloudDataResult (.ok body) = parseResponse body from
      rfl, hparse]
    exact ⟨rfl, rfl, rfl, rfl⟩
  · intro st e now hep
    unfold handleCloudSyncSave
    rw [if_neg hep]
    exact ⟨rfl, rfl, rfl, rfl⟩

/-- C8 witness: a concrete HTTP failure, a concrete decompression failure
(`compressed: true` with garbage `data`), and a concrete save failure all
leave a concrete state's data untouched with the syncing flag cleared. -/
theorem C8_sync_failure_preserves_state_witness :
    ((handleCloudSyncFetch
      { templates := [Json.obj [("id", Json.str "a")]],
        version := Json.str "1.0.0", endpoint := "https://e", apiKey := "",
        isSyncing := true, lastSyncTime := "", saveDebounce := false,
        store := [] }
      (.error "Sync Error: 404 Not Found") "t").templates =
        [Json.obj [("id", Json.str "a")]]) ∧
    ((handleCloudSyncFetch
      { templates := [Json.obj [("id", Json.str "a")]],
        version := Json.str "1.0.0", endpoint := "https://e", apiKey := "",
        isSyncing := true, lastSyncTime := "", saveDebounce := false,
        store := [] }
      (.ok (Json.obj [("compressed", Json.bool true),
        ("data", Json.str "garbage")])) "t").version = Json.str "1.0.0") ∧
    ((handleCloudSyncSave
      { templates := [Json.obj [("id", Json.str "a")]],
        version := Json.str "1.0.0", endpoint := "https://e", apiKey := "",
        isSyncing := true, lastSyncTime := "", saveDebounce := false,
        store := [] }
      (.error "Save Error: 500 Internal Server Error") "t").isSyncing =
        false) := by
  refine ⟨?_, ?_, ?_⟩
  · exact (C8_sync_failure_preserves_state.1 _ "Sync Error: 404 Not Found" "t"
      (by simp)).1
  · exact ((C8_sync_failure_preserves_state.2.1 _
      (Json.obj [("compressed", Json.bool true), ("data", Json.str "garbage")])
      decompressErrorMsg "t" (by simp) rfl).2).1
  · exact ((C8_sync_failure_preserves_state.2.2 _
      "Save Error: 500 Internal Server Error" "t" (by simp)).2).2.2

/-- C10: for a string-version state, deleting an id removes every template
whose `id` field equals it (all duplicates at once), increments the
revision unconditionally via `incrementVersion` (persisting it), restarts
the debounced save (when an endpoint is configured), and leaves the
collection unchanged whenever no template carries the id. -/
theorem C10_delete_template (st : AppState) (id v : String)
    (hv : st.version = .str v) :
    handleDeleteTemplate id st = some
      { st with
        templates := st.templates.filter (fun t =>
          match t.getField "id" with
          | some (.str s) => s != id
          | _ => true),
        version := .str (incrementVersion v st.store).1,
        store := (incrementVersion v st.store).2,
        saveDebounce := st.endpoint != "" } ∧
    (∀ t ∈ st.templates.filter (fun t =>
        match t.getField "id" with
        | some (.str s) => s != id
        | _ => true), t.getField "id" ≠ some (.str id)) ∧
    ((∀ t ∈ st.templates, t.getField "id" ≠ some (.str id)) →
      st.templates.filter (fun t =>
        match t.getField "id" with
        | some (.str s) => s != id
        | _ => true) = st.templates) := by
  refine ⟨?_, ?_, ?_⟩
  · unfold handleDeleteTemplate
    rw [hv]
  · intro t ht heq
    have hp := (List.mem_filter.mp ht).2
    rw [heq] at hp
    simp at hp
  · intro hnone
    refine List.filter_eq_self.mpr ?_
    intro t ht
    cases hcase : t.getField "id" with
    | none => simp
    | some j =>
      cases j with
      | str s =>
        have : s ≠ id := by
          intro h
          exact hnone t ht (by rw [hcase, h])
        simp [this]
      | null => simp
      | bool b => simp
      | num i => simp
      | arr xs => simp
      | obj kvs => simp

/-- C10 witness: deleting `"a"` from a collection holding two templates
with id `"a"` and one with id `"b"` removes both duplicates, bumps the
revision `"1.0.0"` to `"1.0.1"` (persisted), and schedules the debounced
save; deleting an absent id `"zzz"` leaves the collection unchanged while
the revision still advances. -/
theorem C10_delete_template_witness :
    handleDeleteTemplate "a"
      { templates := [Json.obj [("id", Json.str "a")],
          Json.obj [("id", Json.str "b")], Json.obj [("id", Json.str "a")]],
        version := Json.str "1.0.0", endpoint := "https://e", apiKey := "",
        isSyncing := false, lastSyncTime := "", saveDebounce := false,
        store := [] } = some
      { templates := [Json.obj [("id", Json.str "b")]],
        version := Json.str "1.0.1", endpoint := "https://e", apiKey := "",
        isSyncing := false, lastSyncTime := "", saveDebounce := true,
        store := [(VERSION_KEY, "1.0.1")] } ∧
    handleDeleteTemplate "zzz"
      { templates := [Json.obj [("id", Json.str "a")],
          Json.obj [("id", Json.str "b")], Json.obj [("id", Json.str "a")]],
        version := Json.str "1.0.0", endpoint := "https://e", apiKey := "",
        isSyncing := false, lastSyncTime := "", saveDebounce := false,
        store := [] } = some
      { templates := [Json.obj [("id", Json.str "a")],
          Json.obj [("id", Json.str "b")], Json.obj [("id", Json.str "a")]],
        version := Json.str "1.0.1", endpoint := "https://e", apiKey := "",
        isSyncing := false, lastSyncTime := "", saveDebounce := true,
        store := [(VERSION_KEY, "1.0.1")] } := by
  constructor
  · exact (C10_delete_template
      { templates := [Json.obj [("id", Json.str "a")],
          Json.obj [("id", Json.str "b")], Json.obj [("id", Json.str "a")]],
        version := Json.str "1.0.0", endpoint := "https://e", apiKey := "",
        isSyncing := false, lastSyncTime := "", saveDebounce := false,
        store := [] } "a" "1.0.0" rfl).1
  · exact (C10_delete_template
      { templates := [Json.obj [("id", Json.str "a")],
          Json.obj [("id", Json.str "b")], Json.obj [("id", Json.str "a")]],
        version := Json.str "1.0.0", endpoint := "https://e", apiKey := "",
        isSyncing := false, lastSyncTime := "", saveDebounce := false,
        store := [] } "zzz" "1.0.0" rfl).1
